import Mathlib

/-!
Verification of the cloud-cost-optimizer metric pipeline.

Shallow embedding of `scripts/collect_billing_data.py` and
`scripts/push_to_prometheus.py`.  Python strings are modelled as `List Char`,
Python floats as `Rat`, dictionaries iterated in insertion order as
association lists, and the HTTP transport as an oracle giving the result of
each POST in issue order.  Fallible file reads are modelled by an explicit
`SnapshotFile` state (missing / malformed / well-formed), matching the
`try/except` structure of `load_metrics_from_file`.
-/

/-- Python strings, modelled as character lists. -/
abbrev Str := List Char

/-- Lift a Lean string literal to the `Str` model. -/
def strOf (s : String) : Str := s.data

/-- Backslash character (code 92). -/
def bslC : Char := Char.ofNat 92

/-- Double-quote character (code 34). -/
def qtC : Char := Char.ofNat 34

/-- Opening curly bracket (code 123). -/
def lbC : Char := Char.ofNat 123

/-- Closing curly bracket (code 125). -/
def rbC : Char := Char.ofNat 125

/-- Newline character (code 10). -/
def nlC : Char := Char.ofNat 10

/-- Digit character for `n < 10` (code 48 + n). -/
def dChar (n : Nat) : Char := Char.ofNat (48 + n)

/-- Numeric value of a digit character. -/
def dVal (c : Char) : Nat := c.toNat - 48

/-- Fuel-driven decimal digit rendering (helper for `natDigits`). -/
def natDigitsAux : Nat → Nat → Str
  | 0, _ => []
  | fuel + 1, n => if n < 10 then [dChar n] else natDigitsAux fuel (n / 10) ++ [dChar (n % 10)]

/-- Decimal rendering of a natural number. -/
def natDigits (n : Nat) : Str := natDigitsAux (n + 1) n

/-- Decimal rendering of an integer. -/
def showInt (i : Int) : Str := if i < 0 then '-' :: natDigits i.natAbs else natDigits i.natAbs

/-- Textual rendering of a metric value (stands in for Python `str(float)`;
no claim inspects the digits themselves). -/
def showValue (q : Rat) : Str := showInt q.num ++ (if q.den = 1 then [] else '/' :: natDigits q.den)

/-! ## PrometheusMetricFormatter (push_to_prometheus.py, lines 28-77) -/

/-- Characters allowed by the metric-name regex `[a-zA-Z0-9_:]`
(`sanitize_metric_name`, line 36). -/
def isMetricChar (c : Char) : Bool :=
  (65 ≤ c.toNat && c.toNat ≤ 90) || (97 ≤ c.toNat && c.toNat ≤ 122) ||
  (48 ≤ c.toNat && c.toNat ≤ 57) || c.toNat == 95 || c.toNat == 58

/-- Characters allowed by the label-name regex `[a-zA-Z0-9_]` (line 42). -/
def isLabelChar (c : Char) : Bool :=
  (65 ≤ c.toNat && c.toNat ≤ 90) || (97 ≤ c.toNat && c.toNat ≤ 122) ||
  (48 ≤ c.toNat && c.toNat ≤ 57) || c.toNat == 95

/-- `re.sub(r'[^a-zA-Z0-9_:]', '_', name)` — push_to_prometheus.py line 36. -/
def sanitize_metric_name (s : Str) : Str := s.map (fun c => if isMetricChar c then c else '_')

/-- `re.sub(r'[^a-zA-Z0-9_]', '_', name)` — push_to_prometheus.py line 42. -/
def sanitize_label_name (s : Str) : Str := s.map (fun c => if isLabelChar c then c else '_')

/-- `value.replace('\\', '\\\\')`: double every backslash (first pass of line 48). -/
def escBackslashes (s : Str) : Str := s.flatMap (fun c => if c = bslC then [bslC, bslC] else [c])

/-- `value.replace('"', '\\"')`: backslash-escape every double quote
(second pass of line 48). -/
def escQuotes (s : Str) : Str := s.flatMap (fun c => if c = qtC then [bslC, c] else [c])

/-- `str(value).replace('\\', '\\\\').replace('"', '\\"')` —
push_to_prometheus.py line 48: backslashes first, then quotes. -/
def sanitize_label_value (s : Str) : Str := escQuotes (escBackslashes s)

/-- Modelled from the spec: the aggregator's un-escaping convention (the
inverse direction of section 8's round-trip property; no un-escaping
function exists in src/).  A backslash makes the following character
literal; other characters stand for themselves. -/
def unescape : Str → Str
  | [] => []
  | [c] => [c]
  | c1 :: c2 :: rest => if c1 = bslC then c2 :: unescape rest else c1 :: unescape (c2 :: rest)

/-- A metric record as handled by the delivery stage: the dictionary shape
loaded from the snapshot file (name, value, labels, ISO timestamp text,
help text). -/
structure MetricRecord where
  name : Str
  value : Rat
  labels : List (Str × Str)
  timestamp : Str
  help_text : Str
deriving DecidableEq

/-- One rendered `label="value"` pair (push_to_prometheus.py lines 60-63). -/
def labelPair (p : Str × Str) : Str :=
  sanitize_label_name p.1 ++ '=' :: qtC :: sanitize_label_value p.2 ++ [qtC]

/-- `sep.join(...)` on the model strings. -/
def joinSep (c : Char) : List Str → Str
  | [] => []
  | [l] => l
  | l :: l2 :: ls => l ++ c :: joinSep c (l2 :: ls)

/-- Lines 65-67: comma-join the label pairs and wrap them in braces
unless empty. -/
def labelsBlock (labels : List (Str × Str)) : Str :=
  let s := joinSep ',' (labels.map labelPair)
  if s = [] then [] else lbC :: s ++ [rbC]

/-- Line 75: `f'{name}{labels_str} {value}'` with the sanitized name. -/
def dataLine (m : MetricRecord) : Str :=
  sanitize_metric_name m.name ++ labelsBlock m.labels ++ ' ' :: showValue m.value

/-- The `lines` list built by `format_metric_for_pushgateway`
(lines 70-75): HELP and TYPE with the sanitized name when help text is
non-empty, then the data line. -/
def format_metric_lines (m : MetricRecord) : List Str :=
  (if m.help_text = [] then []
   else [strOf "# HELP " ++ sanitize_metric_name m.name ++ ' ' :: m.help_text,
         strOf "# TYPE " ++ sanitize_metric_name m.name ++ strOf " gauge"])
  ++ [dataLine m]

/-- Line 77: `'\n'.join(lines)`. -/
def format_metric_for_pushgateway (m : MetricRecord) : Str :=
  joinSep nlC (format_metric_lines m)

/-- Python `s.split('\n')` (`''.split('\n') = ['']`). -/
def splitOnNl : Str → List Str
  | [] => [[]]
  | c :: rest =>
    if c = nlC then [] :: splitOnNl rest
    else
      match splitOnNl rest with
      | [] => [[c]]
      | l :: ls => (c :: l) :: ls

/-- Python `line.startswith('#')`. -/
def startsHash (l : Str) : Bool :=
  match l with
  | [] => false
  | c :: _ => c == '#'

/-- Lines 120-125 of `push_metrics`: re-split the single-metric rendering
and keep only the lines that do not start with `#`. -/
def pushDataLines (m : MetricRecord) : List Str :=
  (splitOnNl (format_metric_for_pushgateway m)).filter (fun l => !(startsHash l))

/-! ## push_metrics grouping and payload (lines 99-128) -/

/-- Insert a metric under its name key, preserving Python dict semantics:
the first matching entry is extended, otherwise a new entry is appended. -/
def addToGroup : List (Str × List MetricRecord) → Str → MetricRecord → List (Str × List MetricRecord)
  | [], n, m => [(n, [m])]
  | (k, g) :: rest, n, m =>
    if k = n then (k, g ++ [m]) :: rest else (k, g) :: addToGroup rest n m

/-- Lines 100-105: `grouped_metrics`, built by insertion-ordered grouping. -/
def groupByName (ms : List MetricRecord) : List (Str × List MetricRecord) :=
  ms.foldl (fun acc m => addToGroup acc m.name m) []

/-- `metrics_list[0].get('help_text', '')` guarded by non-emptiness. -/
def headHelp : List MetricRecord → Str
  | [] => []
  | m :: _ => m.help_text

/-- Line 115: `f'# HELP {metric_name} {help_text}'` — note the raw
(unsanitized) group key. -/
def helpLine (n ht : Str) : Str := strOf "# HELP " ++ n ++ ' ' :: ht

/-- Line 116: `f'# TYPE {metric_name} gauge'` — raw group key. -/
def typeLine (n : Str) : Str := strOf "# TYPE " ++ n ++ strOf " gauge"

/-- Lines 109-125: render one group — HELP/TYPE once (from the FIRST
instance's help text) followed by every instance's non-comment lines. -/
def renderGroup (p : Str × List MetricRecord) : List Str :=
  (if p.2 = [] then []
   else if headHelp p.2 = [] then []
   else [helpLine p.1 (headHelp p.2), typeLine p.1])
  ++ p.2.flatMap pushDataLines

/-- The `formatted_metrics` list of `push_metrics` (lines 108-126); the
payload posted is `'\n'.join` of these lines. -/
def payloadLines (ms : List MetricRecord) : List Str :=
  (groupByName ms).flatMap renderGroup

/-! ## Delivery client (PrometheusPusher, lines 79-226) and main (247-309) -/

/-- Outcome of one HTTP POST to the pushgateway. -/
inductive HttpResult
  | ok200
  | badStatus (code : Nat)
  | timeout
  | connError
deriving DecidableEq

/-- Lines 149-164: only a 200 status yields `True`; non-200, timeout and
connection errors all yield `False`. -/
def respOk : HttpResult → Bool
  | .ok200 => true
  | _ => false

/-- `push_metrics` (lines 92-164) with a request trace: an empty input
returns success without issuing any request (lines 94-96); otherwise one
POST is issued and its status decides the result. -/
def push_metrics_trace (ms : List MetricRecord) (resp : HttpResult) : Bool × List (List MetricRecord) :=
  if ms.isEmpty then (true, [])
  else (respOk resp, [ms])

/-- Loop body of `push_metrics_individually` (lines 170-184): one singleton
push per metric, counting successes; `net i` is the result of the i-th
POST. -/
def pushIndividuallyAux : List MetricRecord → (Nat → HttpResult) → Nat → Nat × List (List MetricRecord)
  | [], _, _ => (0, [])
  | m :: rest, net, i =>
    let r := push_metrics_trace [m] (net i)
    let nxt := pushIndividuallyAux rest net (i + 1)
    ((if r.1 then 1 else 0) + nxt.1, r.2 ++ nxt.2)

/-- `push_metrics_individually` (lines 166-187): returns
`success_count > 0`. -/
def push_metrics_individually (ms : List MetricRecord) (net : Nat → HttpResult) : Bool × List (List MetricRecord) :=
  let a := pushIndividuallyAux ms net 0
  (decide (0 < a.1), a.2)

/-- State of the snapshot file as seen by `load_metrics_from_file`:
absent, unparseable JSON, or a well-formed record list. -/
inductive SnapshotFile
  | missing
  | malformed
  | wellFormed (records : List MetricRecord)
deriving DecidableEq

/-- `load_metrics_from_file` (lines 228-245): `FileNotFoundError` and
`JSONDecodeError` are caught and yield `[]`. -/
def load_metrics_from_file : SnapshotFile → List MetricRecord
  | .missing => []
  | .malformed => []
  | .wellFormed rs => rs

/-- The delivery stage of `main` (lines 264-305): load the snapshot; an
empty load is reported as failure (lines 266-268); otherwise batch push,
falling back to individual pushes on batch failure (lines 279-284).
`batch` is the batch POST's result; `net i` the i-th individual POST's. -/
def mainDelivery (file : SnapshotFile) (batch : HttpResult) (net : Nat → HttpResult) : Bool × List (List MetricRecord) :=
  let ms := load_metrics_from_file file
  if ms.isEmpty then (false, [])
  else
    let b := push_metrics_trace ms batch
    if b.1 then b
    else
      let ind := push_metrics_individually ms net
      (ind.1, b.2 ++ ind.2)

/-! ## Timestamps (datetime.isoformat / fromisoformat) -/

/-- A wall-clock instant, mirroring the fields of Python `datetime`. -/
structure Datetime where
  year : Nat
  month : Nat
  day : Nat
  hour : Nat
  minute : Nat
  second : Nat
  microsecond : Nat
deriving DecidableEq

/-- Two-digit zero-padded decimal field. -/
def pad2 (n : Nat) : Str := [dChar (n / 10 % 10), dChar (n % 10)]

/-- Four-digit zero-padded decimal field. -/
def pad4 (n : Nat) : Str :=
  [dChar (n / 1000 % 10), dChar (n / 100 % 10), dChar (n / 10 % 10), dChar (n % 10)]

/-- Six-digit zero-padded decimal field. -/
def pad6 (n : Nat) : Str :=
  [dChar (n / 100000 % 10), dChar (n / 10000 % 10), dChar (n / 1000 % 10),
   dChar (n / 100 % 10), dChar (n / 10 % 10), dChar (n % 10)]

/-- `datetime.isoformat()`: `YYYY-MM-DDTHH:MM:SS` with a `.ffffff` suffix
exactly when the microsecond field is non-zero. -/
def isoformat (t : Datetime) : Str :=
  pad4 t.year ++ '-' :: pad2 t.month ++ '-' :: pad2 t.day ++ 'T' :: pad2 t.hour ++
  ':' :: pad2 t.minute ++ ':' :: pad2 t.second ++
  (if t.microsecond = 0 then [] else '.' :: pad6 t.microsecond)

/-- Value of two digit characters. -/
def v2 (a b : Char) : Nat := dVal a * 10 + dVal b

/-- Value of four digit characters. -/
def v4 (a b c d : Char) : Nat := dVal a * 1000 + dVal b * 100 + dVal c * 10 + dVal d

/-- Value of six digit characters. -/
def v6 (a b c d e f : Char) : Nat :=
  dVal a * 100000 + dVal b * 10000 + dVal c * 1000 + dVal d * 100 + dVal e * 10 + dVal f

/-- `datetime.fromisoformat` on the canonical shapes produced by
`isoformat` (fixed-position fields, optional microsecond suffix). -/
def parseIso (str : Str) : Option Datetime :=
  match str with
  | y1 :: y2 :: y3 :: y4 :: c1 :: o1 :: o2 :: c2 :: d1 :: d2 :: c3 :: h1 :: h2 :: c4 ::
    n1 :: n2 :: c5 :: s1 :: s2 :: rest =>
    if c1 = '-' ∧ c2 = '-' ∧ c3 = 'T' ∧ c4 = ':' ∧ c5 = ':' then
      match rest with
      | [] => some ⟨v4 y1 y2 y3 y4, v2 o1 o2, v2 d1 d2, v2 h1 h2, v2 n1 n2, v2 s1 s2, 0⟩
      | c6 :: u1 :: u2 :: u3 :: u4 :: u5 :: u6 :: tail =>
        if c6 = '.' ∧ tail = [] then
          some ⟨v4 y1 y2 y3 y4, v2 o1 o2, v2 d1 d2, v2 h1 h2, v2 n1 n2, v2 s1 s2,
                v6 u1 u2 u3 u4 u5 u6⟩
        else none
      | _ => none
    else none
  | _ => none

/-- Field bounds under which the fixed-width rendering is faithful
(every real datetime satisfies them). -/
def Datetime.okRange (t : Datetime) : Prop :=
  t.year < 10000 ∧ t.month < 100 ∧ t.day < 100 ∧ t.hour < 100 ∧
  t.minute < 100 ∧ t.second < 100 ∧ t.microsecond < 1000000

instance (t : Datetime) : Decidable t.okRange := by
  unfold Datetime.okRange; infer_instance

/-! ## Collector (collect_billing_data.py) -/

/-- The `BillingMetric` dataclass (collect_billing_data.py lines 30-37). -/
structure BillingMetric where
  name : Str
  value : Rat
  labels : List (Str × Str)
  timestamp : Datetime
  help_text : Str
deriving DecidableEq

/-- `save_metrics_to_file` (lines 303-320): `asdict` plus
`timestamp.isoformat()`; the JSON encoding is modelled as the identity on
the resulting record list. -/
def save_metrics_to_file (ms : List BillingMetric) : List MetricRecord :=
  ms.map (fun m => ⟨m.name, m.value, m.labels, isoformat m.timestamp, m.help_text⟩)

/-- One `Groups` entry of a Cost Explorer `ResultsByTime` item:
keys plus blended/unblended amount and unit. -/
structure CostGroup where
  keys : List Str
  blendedAmount : Rat
  blendedUnit : Str
  unblendedAmount : Rat
  unblendedUnit : Str
deriving DecidableEq

/-- One `ResultsByTime` item: period start date and its groups. -/
structure ResultByTime where
  start : Str
  groups : List CostGroup
deriving DecidableEq

/-- Line 85: `group['Keys'][0] if group['Keys'] else 'Unknown'`. -/
def serviceOf (g : CostGroup) : Str :=
  match g.keys with
  | [] => strOf "Unknown"
  | k :: _ => k

/-- Lines 87-117: per-group cost metrics; each of the blended and
unblended amounts yields a metric only when strictly positive. -/
def costGroupMetrics (accountId : Str) (now : Datetime) (date : Str) (g : CostGroup) : List BillingMetric :=
  (if 0 < g.blendedAmount then
    [⟨strOf "aws_billing_blended_cost_usd", g.blendedAmount,
      [(strOf "service", serviceOf g), (strOf "account_id", accountId),
       (strOf "date", date), (strOf "currency", g.blendedUnit)],
      now, strOf "AWS blended cost by service in USD"⟩]
   else [])
  ++
  (if 0 < g.unblendedAmount then
    [⟨strOf "aws_billing_unblended_cost_usd", g.unblendedAmount,
      [(strOf "service", serviceOf g), (strOf "account_id", accountId),
       (strOf "date", date), (strOf "currency", g.unblendedUnit)],
      now, strOf "AWS unblended cost by service in USD"⟩]
   else [])

/-- `get_current_costs` (lines 58-124), success path: iterate the
results-by-time and their groups, appending cost metrics. -/
def get_current_costs (accountId : Str) (now : Datetime) (results : List ResultByTime) : List BillingMetric :=
  results.flatMap (fun r => r.groups.flatMap (costGroupMetrics accountId now r.start))

/-- One budget performance-history entry (ActualCost / ForecastedCost
amounts). -/
structure PerfEntry where
  actualAmount : Rat
  forecastedAmount : Rat
deriving DecidableEq

/-- One budget: name, limit amount, type, and its performance history. -/
structure Budget where
  budgetName : Str
  limitAmount : Rat
  budgetType : Str
  history : List PerfEntry
deriving DecidableEq

/-- Line 283: `(actual_spend / budget_limit * 100) if budget_limit > 0
else 0`. -/
def utilizationValue (actual limit : Rat) : Rat :=
  if 0 < limit then actual / limit * 100 else 0

/-- The shared label set of the four budget metrics (lines 247-251 etc.). -/
def budgetLabels (accountId : Str) (b : Budget) : List (Str × Str) :=
  [(strOf "budget_name", b.budgetName), (strOf "account_id", accountId),
   (strOf "budget_type", b.budgetType)]

/-- Lines 224-294: per-budget metrics.  Nothing is emitted without a
performance-history entry; otherwise the latest entry yields limit,
actual-spend, forecasted-spend and utilization metrics. -/
def budgetMetrics (accountId : Str) (now : Datetime) (b : Budget) : List BillingMetric :=
  match b.history.getLast? with
  | none => []
  | some latest =>
    [⟨strOf "aws_budget_limit_usd", b.limitAmount, budgetLabels accountId b,
      now, strOf "AWS budget limit in USD"⟩,
     ⟨strOf "aws_budget_actual_spend_usd", latest.actualAmount, budgetLabels accountId b,
      now, strOf "AWS budget actual spend in USD"⟩,
     ⟨strOf "aws_budget_forecasted_spend_usd", latest.forecastedAmount, budgetLabels accountId b,
      now, strOf "AWS budget forecasted spend in USD"⟩,
     ⟨strOf "aws_budget_utilization_percentage",
      utilizationValue latest.actualAmount b.limitAmount, budgetLabels accountId b,
      now, strOf "AWS budget utilization as percentage"⟩]

/-- `get_budget_metrics` (lines 210-301), success path over the listed
budgets. -/
def get_budget_metrics (accountId : Str) (now : Datetime) (budgets : List Budget) : List BillingMetric :=
  budgets.flatMap (budgetMetrics accountId now)

/-! ## Proof-side characterization of the grouping -/

/-- Keys of a grouped-metrics association list. -/
def keysOf (l : List (Str × List MetricRecord)) : List Str := l.map Prod.fst

/-- Records whose name is not among the given keys. -/
def notInKeys (ks : List Str) (m : MetricRecord) : Bool := !(decide (m.name ∈ ks))

/-- First-occurrence grouping in closed recursive form; proved equal to
`groupByName` below. -/
def groupSpec : List MetricRecord → List (Str × List MetricRecord)
  | [] => []
  | m :: rest =>
    (m.name, m :: rest.filter (fun x => decide (x.name = m.name))) ::
      groupSpec (rest.filter (fun x => !(decide (x.name = m.name))))
termination_by l => l.length
decreasing_by
  simp only [List.length_cons]
  exact Nat.lt_succ_of_le (List.length_filter_le _ _)

example : sanitize_metric_name (strOf "a.b") = strOf "a_b" := by decide
example : sanitize_label_value (strOf "x") = strOf "x" := by decide
example : splitOnNl (strOf "a") = [strOf "a"] := by decide
example : parseIso (isoformat ⟨2026, 10, 12, 1, 2, 3, 0⟩) = some ⟨2026, 10, 12, 1, 2, 3, 0⟩ := by decide
example : parseIso (isoformat ⟨2026, 10, 12, 1, 2, 3, 456⟩) = some ⟨2026, 10, 12, 1, 2, 3, 456⟩ := by decide

/-! ## Digit and timestamp round-trip lemmas -/

theorem dVal_dChar : ∀ d : Nat, d < 10 → dVal (dChar d) = d := by decide

theorem v2_pad (n : Nat) (h : n < 100) : v2 (dChar (n / 10 % 10)) (dChar (n % 10)) = n := by
  unfold v2
  rw [dVal_dChar _ (Nat.mod_lt _ (by norm_num)), dVal_dChar _ (Nat.mod_lt _ (by norm_num))]
  omega

theorem v4_pad (n : Nat) (h : n < 10000) :
    v4 (dChar (n / 1000 % 10)) (dChar (n / 100 % 10)) (dChar (n / 10 % 10)) (dChar (n % 10)) = n := by
  unfold v4
  rw [dVal_dChar _ (Nat.mod_lt _ (by norm_num)), dVal_dChar _ (Nat.mod_lt _ (by norm_num)),
    dVal_dChar _ (Nat.mod_lt _ (by norm_num)), dVal_dChar _ (Nat.mod_lt _ (by norm_num))]
  omega

theorem v6_pad (n : Nat) (h : n < 1000000) :
    v6 (dChar (n / 100000 % 10)) (dChar (n / 10000 % 10)) (dChar (n / 1000 % 10))
      (dChar (n / 100 % 10)) (dChar (n / 10 % 10)) (dChar (n % 10)) = n := by
  unfold v6
  rw [dVal_dChar _ (Nat.mod_lt _ (by norm_num)), dVal_dChar _ (Nat.mod_lt _ (by norm_num)),
    dVal_dChar _ (Nat.mod_lt _ (by norm_num)), dVal_dChar _ (Nat.mod_lt _ (by norm_num)),
    dVal_dChar _ (Nat.mod_lt _ (by norm_num)), dVal_dChar _ (Nat.mod_lt _ (by norm_num))]
  omega

theorem parse_iso_roundtrip (t : Datetime) (h : t.okRange) :
    parseIso (isoformat t) = some t := by
  obtain ⟨y, mo, d, hh, mi, s, u⟩ := t
  obtain ⟨h1, h2, h3, h4, h5, h6, h7⟩ := h
  by_cases hz : u = 0
  · subst hz
    unfold isoformat
    rw [if_pos rfl]
    have e : parseIso (pad4 y ++ '-' :: pad2 mo ++ '-' :: pad2 d ++ 'T' :: pad2 hh ++
        ':' :: pad2 mi ++ ':' :: pad2 s ++ []) =
        some ⟨v4 (dChar (y / 1000 % 10)) (dChar (y / 100 % 10)) (dChar (y / 10 % 10)) (dChar (y % 10)),
              v2 (dChar (mo / 10 % 10)) (dChar (mo % 10)),
              v2 (dChar (d / 10 % 10)) (dChar (d % 10)),
              v2 (dChar (hh / 10 % 10)) (dChar (hh % 10)),
              v2 (dChar (mi / 10 % 10)) (dChar (mi % 10)),
              v2 (dChar (s / 10 % 10)) (dChar (s % 10)), 0⟩ := rfl
    rw [e]
    simp only [Option.some.injEq, Datetime.mk.injEq]
    exact ⟨v4_pad y h1, v2_pad mo h2, v2_pad d h3, v2_pad hh h4, v2_pad mi h5, v2_pad s h6,
      trivial⟩
  · unfold isoformat
    rw [if_neg hz]
    have e : parseIso (pad4 y ++ '-' :: pad2 mo ++ '-' :: pad2 d ++ 'T' :: pad2 hh ++
        ':' :: pad2 mi ++ ':' :: pad2 s ++ '.' :: pad6 u) =
        some ⟨v4 (dChar (y / 1000 % 10)) (dChar (y / 100 % 10)) (dChar (y / 10 % 10)) (dChar (y % 10)),
              v2 (dChar (mo / 10 % 10)) (dChar (mo % 10)),
              v2 (dChar (d / 10 % 10)) (dChar (d % 10)),
              v2 (dChar (hh / 10 % 10)) (dChar (hh % 10)),
              v2 (dChar (mi / 10 % 10)) (dChar (mi % 10)),
              v2 (dChar (s / 10 % 10)) (dChar (s % 10)),
              v6 (dChar (u / 100000 % 10)) (dChar (u / 10000 % 10)) (dChar (u / 1000 % 10))
                (dChar (u / 100 % 10)) (dChar (u / 10 % 10)) (dChar (u % 10))⟩ := rfl
    rw [e]
    simp only [Option.some.injEq, Datetime.mk.injEq]
    exact ⟨v4_pad y h1, v2_pad mo h2, v2_pad d h3, v2_pad hh h4, v2_pad mi h5, v2_pad s h6,
      v6_pad u h7⟩

/-! ## Escaping lemmas -/

theorem escB_cons (c : Char) (r : Str) :
    escBackslashes (c :: r) = (if c = bslC then [bslC, bslC] else [c]) ++ escBackslashes r := by
  unfold escBackslashes
  rw [List.flatMap_cons]

theorem escQ_cons (c : Char) (r : Str) :
    escQuotes (c :: r) = (if c = qtC then [bslC, c] else [c]) ++ escQuotes r := by
  unfold escQuotes
  rw [List.flatMap_cons]

theorem escQ_append (a b : Str) : escQuotes (a ++ b) = escQuotes a ++ escQuotes b := by
  unfold escQuotes
  rw [List.flatMap_append]

theorem sanitize_label_value_cons (c : Char) (r : Str) :
    sanitize_label_value (c :: r) =
      (if c = bslC then [bslC, bslC] else if c = qtC then [bslC, qtC] else [c]) ++
        sanitize_label_value r := by
  unfold sanitize_label_value
  rw [escB_cons, escQ_append]
  congr 1
  by_cases hb : c = bslC
  · subst hb
    rw [if_pos rfl, if_pos rfl]
    decide
  · rw [if_neg hb, if_neg hb]
    by_cases hq : c = qtC
    · subst hq
      rw [if_pos rfl]
      decide
    · rw [if_neg hq, escQ_cons, if_neg hq]
      rfl

theorem slv_cons_ne_nil (x : Char) (r : Str) : sanitize_label_value (x :: r) ≠ [] := by
  rw [sanitize_label_value_cons]
  by_cases h1 : x = bslC
  · rw [if_pos h1]
    simp
  · rw [if_neg h1]
    by_cases h2 : x = qtC
    · rw [if_pos h2]
      simp
    · rw [if_neg h2]
      simp

theorem unescape_after_bsl (c2 : Char) (rest : Str) :
    unescape (bslC :: c2 :: rest) = c2 :: unescape rest := by
  simp [unescape]

theorem unescape_cons_of_ne (c : Char) (hc : ¬ c = bslC) (l : Str) (hl : l ≠ []) :
    unescape (c :: l) = c :: unescape l := by
  cases l with
  | nil => exact absurd rfl hl
  | cons d rest => simp [unescape, hc]

theorem unescape_sanitize (s : Str) : unescape (sanitize_label_value s) = s := by
  induction s with
  | nil => rfl
  | cons c r ih =>
    rw [sanitize_label_value_cons]
    by_cases hb : c = bslC
    · subst hb
      rw [if_pos rfl]
      show unescape (bslC :: bslC :: sanitize_label_value r) = bslC :: r
      rw [unescape_after_bsl, ih]
    · rw [if_neg hb]
      by_cases hq : c = qtC
      · subst hq
        rw [if_pos rfl]
        show unescape (bslC :: qtC :: sanitize_label_value r) = qtC :: r
        rw [unescape_after_bsl, ih]
      · rw [if_neg hq]
        cases r with
        | nil => rfl
        | cons x r2 =>
          show unescape (c :: sanitize_label_value (x :: r2)) = c :: x :: r2
          rw [unescape_cons_of_ne c hb _ (slv_cons_ne_nil x r2), ih]

/-! ## Claim theorems: C1, C6, C7, C8, C9, C10 -/

/-- C1 (counterexample): on a missing snapshot file the delivery run
returns failure, not success as the claim states — `main` treats the
empty loaded sequence as an error (lines 266-268). -/
theorem missing_snapshot_run_fails_cex :
    (mainDelivery .missing .ok200 (fun _ => .ok200)).1 = false := rfl

/-- C1 (amended): reading a missing or malformed snapshot file yields the
empty metric sequence without raising, and the run then reports overall
FAILURE having issued no push request; only the push operation itself
treats an empty sequence as vacuous success. -/
theorem load_error_empty_then_run_fails (b : HttpResult) (net : Nat → HttpResult) :
    load_metrics_from_file .missing = [] ∧
    load_metrics_from_file .malformed = [] ∧
    mainDelivery .missing b net = (false, []) ∧
    mainDelivery .malformed b net = (false, []) ∧
    (push_metrics_trace [] b).1 = true :=
  ⟨rfl, rfl, rfl, rfl, rfl⟩

/-- C6: for a budget with a performance-history entry the emitted
utilization metric's value is `actual / limit * 100` guarded by
`0 < limit`; for `limit ≤ 0` the value is the constant `0` and the
division branch is not taken. -/
theorem budget_utilization_guarded (accountId : Str) (now : Datetime) (b : Budget)
    (latest : PerfEntry) (hl : b.history.getLast? = some latest) :
    get_budget_metrics accountId now [b] =
      [⟨strOf "aws_budget_limit_usd", b.limitAmount, budgetLabels accountId b,
        now, strOf "AWS budget limit in USD"⟩,
       ⟨strOf "aws_budget_actual_spend_usd", latest.actualAmount, budgetLabels accountId b,
        now, strOf "AWS budget actual spend in USD"⟩,
       ⟨strOf "aws_budget_forecasted_spend_usd", latest.forecastedAmount, budgetLabels accountId b,
        now, strOf "AWS budget forecasted spend in USD"⟩,
       ⟨strOf "aws_budget_utilization_percentage",
        utilizationValue latest.actualAmount b.limitAmount, budgetLabels accountId b,
        now, strOf "AWS budget utilization as percentage"⟩] ∧
    (b.limitAmount ≤ 0 → utilizationValue latest.actualAmount b.limitAmount = 0) ∧
    (0 < b.limitAmount →
      utilizationValue latest.actualAmount b.limitAmount =
        latest.actualAmount / b.limitAmount * 100) := by
  refine ⟨?_, ?_, ?_⟩
  · unfold get_budget_metrics budgetMetrics
    rw [List.flatMap_cons, List.flatMap_nil, hl]
    simp
  · intro h
    unfold utilizationValue
    rw [if_neg (not_lt.mpr h)]
  · intro h
    unfold utilizationValue
    rw [if_pos h]

/-- C6 (witness): a concrete budget with limit 0 and actual spend 5 has a
performance entry, and its utilization value is 0 rather than a division. -/
theorem budget_utilization_guarded_witness :
    (([⟨5, 7⟩] : List PerfEntry).getLast? = some ⟨5, 7⟩) ∧ utilizationValue 5 0 = 0 := by
  refine ⟨rfl, ?_⟩
  have h := budget_utilization_guarded (strOf "123456789012") ⟨2026, 1, 1, 0, 0, 0, 0⟩
    ⟨strOf "monthly", 0, strOf "COST", [⟨5, 7⟩]⟩ ⟨5, 7⟩ rfl
  exact h.2.1 le_rfl

/-- C7: writing a metric sequence through the Snapshot Store and reading
it back yields records equal to the originals in name, value, labels and
help text in the same order, with each stored timestamp parsing back to
the original datetime. -/
theorem snapshot_roundtrip (ms : List BillingMetric)
    (h : ∀ m ∈ ms, m.timestamp.okRange) :
    load_metrics_from_file (.wellFormed (save_metrics_to_file ms)) =
      ms.map (fun m => ⟨m.name, m.value, m.labels, isoformat m.timestamp, m.help_text⟩) ∧
    ∀ m ∈ ms, parseIso (isoformat m.timestamp) = some m.timestamp :=
  ⟨rfl, fun m hm => parse_iso_roundtrip m.timestamp (h m hm)⟩

/-- Concrete metric used by the snapshot round-trip witness. -/
def wMetric : BillingMetric :=
  ⟨strOf "aws_billing_blended_cost_usd", 5,
   [(strOf "service", strOf "Amazon EC2")], ⟨2026, 10, 12, 3, 4, 5, 6⟩, strOf "cost"⟩

/-- C7 (witness): the round trip at a concrete one-element sequence. -/
theorem snapshot_roundtrip_witness :
    (∀ m ∈ [wMetric], m.timestamp.okRange) ∧
    (load_metrics_from_file (.wellFormed (save_metrics_to_file [wMetric])) =
      [wMetric].map (fun m => ⟨m.name, m.value, m.labels, isoformat m.timestamp, m.help_text⟩) ∧
     ∀ m ∈ [wMetric], parseIso (isoformat m.timestamp) = some m.timestamp) :=
  ⟨by decide, snapshot_roundtrip [wMetric] (by decide)⟩

/-- C8: the label-value escaping escapes backslashes first and then
double quotes (each input character maps to its escape block, applied
exactly once), and un-escaping the escaped value recovers the original
exactly, for every value. -/
theorem label_value_escape_roundtrip (s : Str) (c : Char) :
    sanitize_label_value s = escQuotes (escBackslashes s) ∧
    sanitize_label_value (c :: s) =
      (if c = bslC then [bslC, bslC] else if c = qtC then [bslC, qtC] else [c]) ++
        sanitize_label_value s ∧
    unescape (sanitize_label_value s) = s :=
  ⟨rfl, sanitize_label_value_cons c s, unescape_sanitize s⟩

/-- C9: pushing the empty metric sequence returns success and issues no
HTTP request, for every transport behaviour. -/
theorem push_empty_vacuous_success (resp : HttpResult) :
    push_metrics_trace [] resp = (true, []) := rfl

/-- C10: on the empty sequence the individual-push fallback reports
failure (its success count 0 is not positive), while the batch push
reports success on the same input. -/
theorem individual_push_empty_fails (net : Nat → HttpResult) (resp : HttpResult) :
    (push_metrics_individually [] net).1 = false ∧
    (push_metrics_trace [] resp).1 = true :=
  ⟨rfl, rfl⟩

/-! ## Claim C5: cost-by-service emission policy -/

/-- C5: a cost-by-service record yields no blended-cost metric when the
blended amount is zero or negative, and exactly one blended-cost metric
carrying the amount and exactly the labels service, account_id, date,
currency when it is positive. -/
theorem blended_cost_policy (accountId : Str) (now : Datetime) (date : Str) (g : CostGroup) :
    (get_current_costs accountId now [⟨date, [g]⟩]).filter
        (fun m => decide (m.name = strOf "aws_billing_blended_cost_usd")) =
      (if 0 < g.blendedAmount then
        [⟨strOf "aws_billing_blended_cost_usd", g.blendedAmount,
          [(strOf "service", serviceOf g), (strOf "account_id", accountId),
           (strOf "date", date), (strOf "currency", g.blendedUnit)],
          now, strOf "AWS blended cost by service in USD"⟩]
      else []) := by
  have hne : ¬ ((strOf "aws_billing_unblended_cost_usd" : Str) = strOf "aws_billing_blended_cost_usd") := by
    decide
  unfold get_current_costs costGroupMetrics
  rw [List.flatMap_cons, List.flatMap_nil, List.flatMap_cons, List.flatMap_nil]
  by_cases hb : 0 < g.blendedAmount <;> by_cases hu : 0 < g.unblendedAmount <;>
    simp [hb, hu, List.filter_cons, hne]

/-! ## Grouping characterization (for the batch payload claims) -/

theorem keysOf_append (a b : List (Str × List MetricRecord)) :
    keysOf (a ++ b) = keysOf a ++ keysOf b := by
  unfold keysOf
  rw [List.map_append]

theorem addToGroup_of_not_mem (acc : List (Str × List MetricRecord)) (n : Str)
    (m : MetricRecord) (h : n ∉ keysOf acc) :
    addToGroup acc n m = acc ++ [(n, [m])] := by
  induction acc with
  | nil => rfl
  | cons p rest ih =>
    obtain ⟨k, g⟩ := p
    simp only [keysOf, List.map_cons, List.mem_cons, not_or] at h
    obtain ⟨h1, h2⟩ := h
    show (if k = n then (k, g ++ [m]) :: rest else (k, g) :: addToGroup rest n m) = _
    rw [if_neg (fun hk => h1 hk.symm), ih h2]
    rfl

theorem addToGroup_of_mem (acc : List (Str × List MetricRecord)) (n : Str)
    (m : MetricRecord) (hnd : (keysOf acc).Nodup) (h : n ∈ keysOf acc) :
    addToGroup acc n m = acc.map (fun p => if p.1 = n then (p.1, p.2 ++ [m]) else p) := by
  induction acc with
  | nil => cases h
  | cons p rest ih =>
    obtain ⟨k, g⟩ := p
    simp only [keysOf, List.map_cons, List.nodup_cons] at hnd
    obtain ⟨hk1, hk2⟩ := hnd
    by_cases hk : k = n
    · subst hk
      show (if k = k then (k, g ++ [m]) :: rest else _) = _
      rw [if_pos rfl]
      simp only [List.map_cons, if_pos rfl]
      congr 1
      have : ∀ p ∈ rest, (if (p : Str × List MetricRecord).1 = k then (p.1, p.2 ++ [m]) else p) = p := by
        intro p hp
        rw [if_neg]
        intro hpk
        exact hk1 (hpk ▸ List.mem_map_of_mem Prod.fst hp)
      rw [List.map_congr_left this]
      exact (List.map_id rest).symm
    · show (if k = n then (k, g ++ [m]) :: rest else (k, g) :: addToGroup rest n m) = _
      rw [if_neg hk]
      simp only [List.map_cons]
      rw [if_neg hk]
      congr 1
      refine ih hk2 ?_
      rcases List.mem_cons.mp h with h | h
      · exact absurd h.symm hk
      · exact h

theorem keysOf_update (acc : List (Str × List MetricRecord)) (n : Str) (m : MetricRecord) :
    keysOf (acc.map (fun p => if p.1 = n then (p.1, p.2 ++ [m]) else p)) = keysOf acc := by
  unfold keysOf
  rw [List.map_map]
  refine List.map_congr_left ?_
  intro p _
  by_cases hp : p.1 = n
  · simp [hp]
  · simp [hp]

theorem foldl_addToGroup (ms : List MetricRecord) :
    ∀ acc : List (Str × List MetricRecord), (keysOf acc).Nodup →
      ms.foldl (fun a m => addToGroup a m.name m) acc =
        acc.map (fun p => (p.1, p.2 ++ ms.filter (fun x => decide (x.name = p.1)))) ++
          groupSpec (ms.filter (notInKeys (keysOf acc))) := by
  induction ms with
  | nil =>
    intro acc _
    simp [groupSpec]
  | cons m rest ih =>
    intro acc hnd
    rw [List.foldl_cons]
    by_cases hm : m.name ∈ keysOf acc
    · rw [addToGroup_of_mem acc m.name m hnd hm]
      rw [ih _ (by rw [keysOf_update]; exact hnd)]
      rw [keysOf_update]
      congr 1
      · rw [List.map_map]
        refine List.map_congr_left ?_
        intro p _
        by_cases hp : p.1 = m.name
        · simp only [Function.comp_apply, if_pos hp]
          rw [List.filter_cons, if_pos (by rw [decide_eq_true_eq]; exact hp.symm)]
          simp
        · simp only [Function.comp_apply, if_neg hp]
          rw [List.filter_cons, if_neg (by rw [decide_eq_true_eq]; exact fun he => hp he.symm)]
      · congr 1
        rw [List.filter_cons, if_neg ?_]
        unfold notInKeys
        simp [hm]
    · rw [addToGroup_of_not_mem acc m.name m hm]
      have hnd2 : (keysOf (acc ++ [(m.name, [m])])).Nodup := by
        rw [keysOf_append]
        refine List.Nodup.append hnd (List.nodup_singleton _) ?_
        intro a ha hb
        rw [show keysOf [(m.name, [m])] = [m.name] from rfl, List.mem_singleton] at hb
        exact hm (hb ▸ ha)
      rw [ih _ hnd2]
      rw [List.map_append, keysOf_append,
        show keysOf [(m.name, [m])] = [m.name] from rfl]
      show _ ++ [(m.name, [m] ++ rest.filter (fun x => decide (x.name = m.name)))] ++ _ = _
      have hfc : (m :: rest).filter (notInKeys (keysOf acc)) =
          m :: rest.filter (notInKeys (keysOf acc)) := by
        rw [List.filter_cons, if_pos (by unfold notInKeys; simp [hm])]
      rw [hfc]
      rw [show groupSpec (m :: rest.filter (notInKeys (keysOf acc))) =
        (m.name, m :: (rest.filter (notInKeys (keysOf acc))).filter
            (fun x => decide (x.name = m.name))) ::
          groupSpec ((rest.filter (notInKeys (keysOf acc))).filter
            (fun x => !(decide (x.name = m.name)))) from by rw [groupSpec]]
      rw [List.filter_filter, List.filter_filter]
      have e1 : rest.filter (fun a => decide (a.name = m.name) && notInKeys (keysOf acc) a) =
          rest.filter (fun x => decide (x.name = m.name)) := by
        refine List.filter_congr ?_
        intro x _
        by_cases hx : x.name = m.name
        · unfold notInKeys
          simp [hx, hm]
        · simp [hx]
      have e2 : rest.filter (fun a => !(decide (a.name = m.name)) && notInKeys (keysOf acc) a) =
          rest.filter (notInKeys (keysOf acc ++ [m.name])) := by
        refine List.filter_congr ?_
        intro x _
        unfold notInKeys
        by_cases hx : x.name = m.name
        · simp [hx]
        · by_cases hxk : x.name ∈ keysOf acc <;> simp [hx, hxk]
      rw [e1, e2]
      have e3 : acc.map (fun p => (p.1, p.2 ++ rest.filter (fun x => decide (x.name = p.1)))) =
          acc.map (fun p => (p.1, p.2 ++ (m :: rest).filter (fun x => decide (x.name = p.1)))) := by
        refine List.map_congr_left ?_
        intro p hp
        have hpn : ¬ (m.name = p.1) := by
          intro he
          exact hm (he ▸ List.mem_map_of_mem Prod.fst hp)
        rw [List.filter_cons, if_neg (by simp [hpn])]
      rw [e3]
      simp [List.append_assoc]

theorem groupByName_eq_groupSpec (ms : List MetricRecord) : groupByName ms = groupSpec ms := by
  have h := foldl_addToGroup ms [] (by simp [keysOf])
  rw [groupByName, h]
  simp only [List.map_nil, List.nil_append]
  congr 1
  refine List.filter_eq_self.mpr ?_
  intro a _
  unfold notInKeys
  simp [keysOf]

theorem groupSpec_keys_from (l : List MetricRecord) :
    ∀ p ∈ groupSpec l, ∃ x ∈ l, x.name = p.1 := by
  match l with
  | [] =>
    intro p hp
    rw [show groupSpec [] = [] from by rw [groupSpec]] at hp
    cases hp
  | m :: rest =>
    intro p hp
    rw [show groupSpec (m :: rest) =
      (m.name, m :: rest.filter (fun x => decide (x.name = m.name))) ::
        groupSpec (rest.filter (fun x => !(decide (x.name = m.name)))) from by rw [groupSpec]] at hp
    rcases List.mem_cons.mp hp with h | h
    · exact ⟨m, List.mem_cons_self m rest, by rw [h]⟩
    · obtain ⟨x, hx, hxn⟩ :=
        groupSpec_keys_from (rest.filter (fun x => !(decide (x.name = m.name)))) p h
      exact ⟨x, List.mem_cons_of_mem m (List.mem_of_mem_filter hx), hxn⟩
termination_by l.length
decreasing_by
  simp only [List.length_cons]
  exact Nat.lt_succ_of_le (List.length_filter_le _ _)

theorem groupSpec_decomp (l : List MetricRecord) (n : Str) :
    (∃ x ∈ l, x.name = n) →
    ∃ gs1 gs2,
      groupSpec l = gs1 ++ (n, l.filter (fun x => decide (x.name = n))) :: gs2 ∧
      (∀ p ∈ gs1, p.1 ≠ n) ∧ (∀ p ∈ gs2, p.1 ≠ n) := by
  match l with
  | [] =>
    rintro ⟨x, hx, -⟩
    cases hx
  | m :: rest =>
    rintro ⟨x, hx, hxn⟩
    have hspec : groupSpec (m :: rest) =
        (m.name, m :: rest.filter (fun y => decide (y.name = m.name))) ::
          groupSpec (rest.filter (fun y => !(decide (y.name = m.name)))) := by
      rw [groupSpec]
    by_cases hn : m.name = n
    · subst hn
      refine ⟨[], groupSpec (rest.filter (fun y => !(decide (y.name = m.name)))), ?_, ?_, ?_⟩
      · rw [hspec, List.nil_append, List.filter_cons,
          if_pos (by rw [decide_eq_true_eq])]
      · intro p hp
        cases hp
      · intro p hp
        obtain ⟨y, hy, hyn⟩ :=
          groupSpec_keys_from (rest.filter (fun y => !(decide (y.name = m.name)))) p hp
        have hyf := List.of_mem_filter hy
        rw [Bool.not_eq_eq_eq_not, Bool.not_true, decide_eq_false_iff_not] at hyf
        rw [← hyn]
        exact fun he => hyf he
    · have hxr : x ∈ rest := by
        rcases List.mem_cons.mp hx with h | h
        · exact absurd (h ▸ hxn) hn
        · exact h
      have hxf : x ∈ rest.filter (fun y => !(decide (y.name = m.name))) := by
        refine List.mem_filter.mpr ⟨hxr, ?_⟩
        rw [Bool.not_eq_eq_eq_not, Bool.not_true, decide_eq_false_iff_not]
        rw [hxn]
        exact fun he => hn he.symm
      obtain ⟨gs1, gs2, heq, h1, h2⟩ :=
        groupSpec_decomp (rest.filter (fun y => !(decide (y.name = m.name)))) n ⟨x, hxf, hxn⟩
      refine ⟨(m.name, m :: rest.filter (fun y => decide (y.name = m.name))) :: gs1, gs2, ?_, ?_, h2⟩
      · have emid : (rest.filter (fun y => !(decide (y.name = m.name)))).filter
            (fun x => decide (x.name = n)) =
            (m :: rest).filter (fun x => decide (x.name = n)) := by
          rw [List.filter_filter]
          rw [List.filter_cons, if_neg (by rw [decide_eq_true_eq]; exact hn)]
          refine List.filter_congr ?_
          intro y _
          by_cases hy : y.name = n
          · have h3 : ¬ (y.name = m.name) := fun he => hn (he.symm.trans hy)
            have h4 : ¬ (n = m.name) := fun he => hn he.symm
            simp [hy, h3, h4]
          · simp [hy]
        rw [hspec, heq, emid, List.cons_append]
      · intro p hp
        rcases List.mem_cons.mp hp with h | h
        · rw [h]
          exact hn
        · exact h1 p h
termination_by l.length
decreasing_by
  simp only [List.length_cons]
  exact Nat.lt_succ_of_le (List.length_filter_le _ _)

/-! ## Claim C2: HELP/TYPE deduplication in the batch payload -/

/-- C2 (amended): if the FIRST instance of a metric-name group carries
non-empty help text, the batch payload consists of the other groups'
lines around exactly one HELP line and one TYPE line for that name,
followed immediately by all of that name's data lines; no other group
has that name. -/
theorem payload_help_type_once (ms : List MetricRecord) (n : Str) (m0 : MetricRecord)
    (hm0 : m0 ∈ ms) (hname : m0.name = n)
    (hh : headHelp (ms.filter (fun x => decide (x.name = n))) ≠ []) :
    ∃ gs1 gs2,
      groupByName ms = gs1 ++ (n, ms.filter (fun x => decide (x.name = n))) :: gs2 ∧
      (∀ p ∈ gs1, p.1 ≠ n) ∧ (∀ p ∈ gs2, p.1 ≠ n) ∧
      payloadLines ms =
        gs1.flatMap renderGroup ++
          (helpLine n (headHelp (ms.filter (fun x => decide (x.name = n)))) ::
            typeLine n ::
            (ms.filter (fun x => decide (x.name = n))).flatMap pushDataLines) ++
          gs2.flatMap renderGroup := by
  obtain ⟨gs1, gs2, heq, h1, h2⟩ := groupSpec_decomp ms n ⟨m0, hm0, hname⟩
  have hgb : groupByName ms = gs1 ++ (n, ms.filter (fun x => decide (x.name = n))) :: gs2 := by
    rw [groupByName_eq_groupSpec]
    exact heq
  refine ⟨gs1, gs2, hgb, h1, h2, ?_⟩
  unfold payloadLines
  rw [hgb, List.flatMap_append, List.flatMap_cons]
  have hne : ms.filter (fun x => decide (x.name = n)) ≠ [] := by
    intro h0
    have hmem : m0 ∈ ms.filter (fun x => decide (x.name = n)) :=
      List.mem_filter.mpr ⟨hm0, by rw [decide_eq_true_eq]; exact hname⟩
    rw [h0] at hmem
    cases hmem
  have hrg : renderGroup (n, ms.filter (fun x => decide (x.name = n))) =
      helpLine n (headHelp (ms.filter (fun x => decide (x.name = n)))) ::
        typeLine n :: (ms.filter (fun x => decide (x.name = n))).flatMap pushDataLines := by
    unfold renderGroup
    simp only []
    rw [if_neg hne, if_neg hh]
    rfl
  rw [hrg]
  simp [List.append_assoc]

/-- First record of the C2 witness group (non-empty help text). -/
def wHelpA : MetricRecord := ⟨strOf "m", 1, [], strOf "t", strOf "h"⟩

/-- Second record of the C2 witness group (empty help text). -/
def wHelpB : MetricRecord := ⟨strOf "m", 2, [], strOf "t", []⟩

/-- C2 (witness): the amended statement at a concrete two-record group
whose first instance carries help text. -/
theorem payload_help_type_once_witness :
    (wHelpA ∈ [wHelpA, wHelpB]) ∧ (wHelpA.name = strOf "m") ∧
    (headHelp (([wHelpA, wHelpB] : List MetricRecord).filter
        (fun x => decide (x.name = strOf "m"))) ≠ []) ∧
    (∃ gs1 gs2,
      groupByName [wHelpA, wHelpB] =
        gs1 ++ (strOf "m", ([wHelpA, wHelpB] : List MetricRecord).filter
          (fun x => decide (x.name = strOf "m"))) :: gs2 ∧
      (∀ p ∈ gs1, p.1 ≠ strOf "m") ∧ (∀ p ∈ gs2, p.1 ≠ strOf "m") ∧
      payloadLines [wHelpA, wHelpB] =
        gs1.flatMap renderGroup ++
          (helpLine (strOf "m") (headHelp (([wHelpA, wHelpB] : List MetricRecord).filter
              (fun x => decide (x.name = strOf "m")))) ::
            typeLine (strOf "m") ::
            (([wHelpA, wHelpB] : List MetricRecord).filter
              (fun x => decide (x.name = strOf "m"))).flatMap pushDataLines) ++
          gs2.flatMap renderGroup) :=
  ⟨List.mem_cons_self wHelpA [wHelpB], rfl, by decide,
    payload_help_type_once [wHelpA, wHelpB] (strOf "m") wHelpA
      (List.mem_cons_self wHelpA [wHelpB]) rfl (by decide)⟩

/-- First record of the C2 counterexample group (empty help text). -/
def cexA : MetricRecord := ⟨strOf "m", 1, [], strOf "t", []⟩

/-- Second record of the C2 counterexample group (non-empty help text,
but not first). -/
def cexB : MetricRecord := ⟨strOf "m", 2, [], strOf "t", strOf "h"⟩

/-- C2 (counterexample): a group in which only the SECOND instance
carries help text produces a payload without any HELP line at all, so
"any instance carries non-empty help text" does not imply a HELP/TYPE
block — only the first instance's help text counts. -/
theorem payload_help_any_instance_cex :
    (∃ m ∈ [cexA, cexB], m.help_text ≠ []) ∧
    (payloadLines [cexA, cexB]).countP (fun l => decide (l.take 7 = strOf "# HELP ")) = 0 := by
  constructor
  · decide
  · decide

/-! ## Claim C3: sanitized names in the rendered output -/

/-- C3 (amended): name sanitization outputs only valid characters and is
idempotent; every data line and the single-metric formatter's HELP/TYPE
lines use the sanitized name.  (The batch payload's HELP/TYPE lines,
by contrast, carry the raw group key — see the counterexample.) -/
theorem sanitized_name_in_data_lines (s : Str) (m : MetricRecord) :
    (sanitize_metric_name s).all isMetricChar = true ∧
    sanitize_metric_name (sanitize_metric_name s) = sanitize_metric_name s ∧
    dataLine m = sanitize_metric_name m.name ++ (labelsBlock m.labels ++ ' ' :: showValue m.value) ∧
    (m.help_text ≠ [] →
      format_metric_lines m =
        [strOf "# HELP " ++ sanitize_metric_name m.name ++ ' ' :: m.help_text,
         strOf "# TYPE " ++ sanitize_metric_name m.name ++ strOf " gauge",
         dataLine m]) := by
  have hu : isMetricChar '_' = true := by decide
  refine ⟨?_, ?_, by unfold dataLine; rw [List.append_assoc], ?_⟩
  · rw [List.all_eq_true]
    intro c hc
    rw [sanitize_metric_name] at hc
    obtain ⟨x, hx, rfl⟩ := List.mem_map.mp hc
    by_cases h : isMetricChar x
    · rw [if_pos h]
      exact h
    · rw [if_neg h]
      exact hu
  · unfold sanitize_metric_name
    rw [List.map_map]
    refine List.map_congr_left ?_
    intro c _
    simp only [Function.comp_apply]
    by_cases h : isMetricChar c
    · rw [if_pos h, if_pos h]
    · rw [if_neg h, if_pos hu]
  · intro hh
    unfold format_metric_lines
    rw [if_neg hh]
    rfl

/-- A record whose name needs sanitizing and which carries help text. -/
def dirtyRecord : MetricRecord := ⟨strOf "a.b", 1, [], strOf "t", strOf "h"⟩

/-- C3 (witness): the amended statement at the concrete dirty-named
record, discharging the non-empty-help hypothesis. -/
theorem sanitized_name_in_data_lines_witness :
    (dirtyRecord.help_text ≠ []) ∧
    format_metric_lines dirtyRecord =
      [strOf "# HELP " ++ sanitize_metric_name dirtyRecord.name ++ ' ' :: dirtyRecord.help_text,
       strOf "# TYPE " ++ sanitize_metric_name dirtyRecord.name ++ strOf " gauge",
       dataLine dirtyRecord] :=
  ⟨by decide, (sanitized_name_in_data_lines (strOf "a.b") dirtyRecord).2.2.2 (by decide)⟩

/-- C3 (counterexample): in the batch payload for a dirty-named metric
the HELP and TYPE lines contain the raw name `a.b`, not the sanitized
`a_b` used by the data line — so not every occurrence of the name in the
rendered output is sanitized. -/
theorem batch_help_uses_raw_name_cex :
    payloadLines [dirtyRecord] =
      [strOf "# HELP a.b h", strOf "# TYPE a.b gauge", strOf "a_b 1"] ∧
    sanitize_metric_name (strOf "a.b") = strOf "a_b" ∧
    (strOf "a.b" : Str) ≠ strOf "a_b" := by
  refine ⟨by decide, by decide, by decide⟩

/-! ## Claim C4: batch-failure fallback to individual pushes -/

theorem pushIndividuallyAux_requests (ms : List MetricRecord) :
    ∀ (net : Nat → HttpResult) (i : Nat),
      (pushIndividuallyAux ms net i).2 = ms.map (fun m => [m]) := by
  induction ms with
  | nil =>
    intro net i
    rfl
  | cons m rest ih =>
    intro net i
    show (push_metrics_trace [m] (net i)).2 ++ (pushIndividuallyAux rest net (i + 1)).2 = _
    rw [ih]
    rfl

theorem pushIndividuallyAux_success (ms : List MetricRecord) :
    ∀ (net : Nat → HttpResult) (i : Nat),
      (0 < (pushIndividuallyAux ms net i).1 ↔
        ∃ j, j < ms.length ∧ respOk (net (i + j)) = true) := by
  induction ms with
  | nil =>
    intro net i
    simp [pushIndividuallyAux]
  | cons m rest ih =>
    intro net i
    have hfst : (pushIndividuallyAux (m :: rest) net i).1 =
        (if respOk (net i) then 1 else 0) + (pushIndividuallyAux rest net (i + 1)).1 := rfl
    rw [hfst]
    by_cases hr : respOk (net i) = true
    · rw [if_pos hr]
      constructor
      · intro _
        exact ⟨0, Nat.succ_pos _, by rw [Nat.add_zero]; exact hr⟩
      · intro _
        omega
    · rw [if_neg hr, Nat.zero_add]
      rw [ih net (i + 1)]
      constructor
      · rintro ⟨j, hj, hok⟩
        refine ⟨j + 1, ?_, ?_⟩
        · simpa using Nat.succ_lt_succ hj
        · rw [show i + (j + 1) = i + 1 + j from by omega]
          exact hok
      · rintro ⟨j, hj, hok⟩
        cases j with
        | zero =>
          rw [Nat.add_zero] at hok
          exact absurd hok hr
        | succ j2 =>
          refine ⟨j2, ?_, ?_⟩
          · simp only [List.length_cons] at hj
            omega
          · rw [show i + 1 + j2 = i + (j2 + 1) from by omega]
            exact hok

/-- C4: when the batch push fails, the run issues exactly one individual
push per input metric (after the single batch request), and reports
overall success exactly when at least one individual push returned 200. -/
theorem batch_fail_then_one_push_per_metric (ms : List MetricRecord) (hne : ms ≠ [])
    (batch : HttpResult) (hb : respOk batch = false) (net : Nat → HttpResult) :
    (mainDelivery (.wellFormed ms) batch net).2 = ms :: ms.map (fun m => [m]) ∧
    ((mainDelivery (.wellFormed ms) batch net).1 = true ↔
      ∃ j, j < ms.length ∧ respOk (net j) = true) := by
  have hie : ms.isEmpty = false := by
    cases ms with
    | nil => exact absurd rfl hne
    | cons a l => rfl
  have hbt : push_metrics_trace ms batch = (respOk batch, [ms]) := by
    unfold push_metrics_trace
    rw [hie]
    rfl
  have hmain : mainDelivery (.wellFormed ms) batch net =
      ((push_metrics_individually ms net).1, [ms] ++ (push_metrics_individually ms net).2) := by
    unfold mainDelivery
    simp only [load_metrics_from_file]
    rw [hie]
    simp only [Bool.false_eq_true, if_false]
    rw [hbt]
    simp [hb]
  constructor
  · rw [hmain]
    show [ms] ++ (push_metrics_individually ms net).2 = _
    have h2 : (push_metrics_individually ms net).2 = ms.map (fun m => [m]) :=
      pushIndividuallyAux_requests ms net 0
    rw [h2]
    rfl
  · rw [hmain]
    show decide (0 < (pushIndividuallyAux ms net 0).1) = true ↔ _
    rw [decide_eq_true_eq]
    rw [pushIndividuallyAux_success ms net 0]
    simp

/-- Five-record input for the C4 witness. -/
def wFive : List MetricRecord :=
  [⟨strOf "m1", 1, [], strOf "t", []⟩, ⟨strOf "m2", 2, [], strOf "t", []⟩,
   ⟨strOf "m3", 3, [], strOf "t", []⟩, ⟨strOf "m4", 4, [], strOf "t", []⟩,
   ⟨strOf "m5", 5, [], strOf "t", []⟩]

/-- Transport for the C4 witness: requests at even indices succeed
(3 of the 5 individual pushes), the rest return HTTP 500. -/
def wNet : Nat → HttpResult := fun i => if i % 2 = 0 then .ok200 else .badStatus 500

/-- C4 (witness): with the batch POST returning 500 and 3 of 5 individual
pushes succeeding, the run reports overall success. -/
theorem batch_fail_then_one_push_per_metric_witness :
    (wFive ≠ []) ∧ respOk (.badStatus 500) = false ∧
    (mainDelivery (.wellFormed wFive) (.badStatus 500) wNet).1 = true := by
  refine ⟨by decide, rfl, ?_⟩
  exact (batch_fail_then_one_push_per_metric wFive (by decide) (.badStatus 500) rfl wNet).2.mpr
    ⟨0, by decide, rfl⟩
